import Mathlib

/-!
Shallow embedding of the analytics core of `dashboard_fiscal_streamlit.py`.

Scalar cells of the tabular input are modelled by `Cell`: a numeric value,
a calendar-date value (the values `pd.to_datetime(errors="coerce")` parses,
as an abstract day number), a non-numeric non-date string, or a missing
value (NaN).  Money amounts are rational numbers; `pd.to_numeric` /
`pd.to_datetime` with `errors="coerce"` become `Option`-valued coercions.
A dataframe is a column-name list plus rows given as association lists
from column name to cell.
-/

namespace Dashboard

inductive Cell where
  | num (q : ℚ)
  | date (d : ℤ)
  | str (s : String)
  | null
deriving DecidableEq

abbrev Row := List (String × Cell)

/-- Reading a cell of a row by column name (missing key reads as NaN). -/
def Row.get (r : Row) (c : String) : Cell :=
  ((r.find? (fun p => p.1 == c)).map Prod.snd).getD Cell.null

/-- Column assignment `df[c] = ...` restricted to one row: every entry
named `c` is overwritten. -/
def Row.set (r : Row) (c : String) (x : Cell) : Row :=
  r.map (fun p => if p.1 == c then (p.1, x) else p)

structure DataFrame where
  cols : List String
  rows : List Row
deriving DecidableEq

/-- Python `str.lower`, for the ASCII range and the Latin-1 accented
capitals (which cover the column names of this domain). -/
def pyLowerChar (c : Char) : Char :=
  if 'A' ≤ c ∧ c ≤ 'Z' then Char.ofNat (c.toNat + 32)
  else if 'À' ≤ c ∧ c ≤ 'Þ' ∧ c ≠ '×' then Char.ofNat (c.toNat + 32)
  else c

def pyLower (s : String) : String := String.mk (s.data.map pyLowerChar)

/-- Python `str.strip`: drop surrounding whitespace. -/
def pyStrip (s : String) : String :=
  String.mk (((s.data.dropWhile Char.isWhitespace).reverse.dropWhile
    Char.isWhitespace).reverse)

/-- Python `str.replace(" ", "_")`. -/
def replaceSpace (s : String) : String :=
  String.mk (s.data.map (fun c => if c = ' ' then '_' else c))

/-- Line 64: `c.lower().strip().replace(" ", "_")`. -/
def normalizeCol (c : String) : String := replaceSpace (pyStrip (pyLower c))

def dataSyns : List String := ["data", "data_emissao", "dt_emissao"]
def valorSyns : List String := ["total", "valor_total", "valor_nf"]
def clienteSyns : List String := ["cliente", "razao_social", "razão_social/nome"]
def produtoSyns : List String := ["produto", "descricao_produto", "item", "servico"]

/-- The synonym table `MAP` of the source. -/
def MAP : List (String × List String) :=
  [("data", dataSyns), ("valor", valorSyns), ("cliente", clienteSyns),
   ("produto", produtoSyns), ("cfop", ["cfop"]), ("cst", ["cst"])]

def synsFor (k : String) : List String :=
  ((MAP.find? (fun p => p.1 == k)).map Prod.snd).getD []

/-- `find_col`: first synonym that is an actual (normalized) column. -/
def find_col (cols : List String) : List String → Option String
  | [] => none
  | p :: ps => if cols.contains p then some p else find_col cols ps

/-- `pd.to_datetime(x, errors="coerce")`: only date-like cells parse. -/
def toDatetimeCoerce : Cell → Option ℤ
  | Cell.date d => some d
  | _ => none

/-- `pd.to_numeric(x, errors="coerce")`: only numeric cells parse. -/
def toNumericCoerce : Cell → Option ℚ
  | Cell.num q => some q
  | _ => none

/-- Numeric reading of a cell of an already numeric column
(a non-numeric or missing cell contributes nothing to a pandas sum). -/
def cellNum : Cell → ℚ
  | Cell.num q => q
  | _ => 0

/-- The coerced amount of a row: `to_numeric(errors="coerce").fillna(0)`. -/
def valorOf (v : String) (r : Row) : ℚ := (toNumericCoerce (r.get v)).getD 0

/-- Line 64 applied to the whole frame (columns and row keys renamed). -/
def normCols (df : DataFrame) : DataFrame :=
  ⟨df.cols.map normalizeCol,
   df.rows.map (fun r => r.map (fun p => (normalizeCol p.1, p.2)))⟩

/-- Lines 83-85: when a date column resolves, parse it and drop the rows
whose date does not parse.  Since only `Cell.date` parses, rewriting the
kept cells with their parsed value is the identity, so the step is the
row filter alone. -/
def dateFilter (df : DataFrame) : DataFrame :=
  match find_col df.cols dataSyns with
  | some d => ⟨df.cols, df.rows.filter (fun r => (toDatetimeCoerce (r.get d)).isSome)⟩
  | none => df

def required_cols : List String := ["valor", "cliente"]

/-- Line 114: `[c for c in required_cols if col[c] is None]`. -/
def missingOf (cols : List String) : List String :=
  required_cols.filter (fun k => (find_col cols (synsFor k)).isNone)

/-- Line 121 restricted to one row: the amount cell becomes
`to_numeric(errors="coerce").fillna(0)`. -/
def coerceRow (v : String) (r : Row) : Row :=
  Row.set r v (Cell.num ((toNumericCoerce (r.get v)).getD 0))

/-- Line 121: `df[col["valor"]] = pd.to_numeric(...).fillna(0)`. -/
def coerceValorStep (v : String) (df : DataFrame) : DataFrame :=
  ⟨df.cols, df.rows.map (coerceRow v)⟩

/-- `Series.nunique`: distinct non-null values. -/
def nunique (cells : List Cell) : ℕ :=
  (cells.filter (fun c => c ≠ Cell.null)).dedup.length

/-- Add one keyed value into an accumulated association list, summing on
an existing key. -/
def addTo (acc : List (Cell × ℚ)) (k : Cell) (q : ℚ) : List (Cell × ℚ) :=
  match acc with
  | [] => [(k, q)]
  | (k', q') :: t => if k' = k then (k', q' + q) :: t else (k', q') :: addTo t k q

/-- `df.groupby(key)[val].sum()`: one entry per distinct non-null key
(pandas drops NaN group keys), in first-seen order. -/
def groupSum (l : List (Cell × ℚ)) : List (Cell × ℚ) :=
  l.foldl (fun acc p => if p.1 = Cell.null then acc else addTo acc p.1 p.2) []

/-- Descending comparison on the value component
(`sort_values(ascending=False)`). -/
def valGe (a b : Cell × ℚ) : Prop := b.2 ≤ a.2

instance : DecidableRel valGe := fun a b => Rat.instDecidableLe b.2 a.2

instance : IsTotal (Cell × ℚ) valGe := ⟨fun a b => le_total b.2 a.2⟩

instance : IsTrans (Cell × ℚ) valGe := ⟨fun _ _ _ h1 h2 => le_trans h2 h1⟩

def sortDesc (l : List (Cell × ℚ)) : List (Cell × ℚ) := List.insertionSort valGe l

/-- Total of a keyed series (`series.sum()`). -/
def totalOf (l : List (Cell × ℚ)) : ℚ := (l.map Prod.snd).sum

/-- Line 172: `%_participacao`, the share column of the sorted table. -/
def participacao (l : List (Cell × ℚ)) : List ℚ :=
  (sortDesc l).map (fun p => p.2 / totalOf (sortDesc l))

/-- Running sum (`Series.cumsum`) starting from `acc`. -/
def cumsum (acc : ℚ) : List ℚ → List ℚ
  | [] => []
  | x :: t => (acc + x) :: cumsum (acc + x) t

/-- Lines 175-178. -/
def classifica_abc (x : ℚ) : String :=
  if x ≤ 0.8 then "A" else if x ≤ 0.95 then "B" else "C"

/-- Line 180: the `classe_abc` column. -/
def abcClasses (l : List (Cell × ℚ)) : List String :=
  (cumsum 0 (participacao l)).map classifica_abc

/-- Order A < B < C of the ABC classes. -/
def rank (s : String) : ℕ := if s = "A" then 0 else if s = "B" then 1 else 2

inductive Risco where
  | alto
  | moderado
  | baixo
deriving DecidableEq

/-- The value of the float division at line 218: a finite quotient, or
one of the non-finite floats a zero denominator produces. -/
inductive RatioVal where
  | fin (q : ℚ)
  | posInf
  | negInf
  | nan
deriving DecidableEq

/-- numpy float division: a finite quotient when the denominator is
nonzero; `x / 0` with `x` nonzero is `+inf` or `-inf` by the sign of
`x`; `0 / 0` is NaN.  No exception is raised in any case. -/
def fdiv (a b : ℚ) : RatioVal :=
  if b = 0 then
    if 0 < a then RatioVal.posInf
    else if a < 0 then RatioVal.negInf
    else RatioVal.nan
  else RatioVal.fin (a / b)

/-- Lines 222-227.  `+inf > 0.60` is true, so `+inf` selects the high
tier; every comparison against NaN is false, and `-inf` exceeds neither
threshold, so both fall through to the low tier. -/
def riscoOf : RatioVal → Risco
  | RatioVal.fin c => if (0.60 : ℚ) < c then Risco.alto
                      else if (0.40 : ℚ) < c then Risco.moderado
                      else Risco.baixo
  | RatioVal.posInf => Risco.alto
  | RatioVal.negInf => Risco.baixo
  | RatioVal.nan => Risco.baixo

structure Output where
  faturamento : ℚ
  qtdNotas : ℕ
  qtdClientes : ℕ
  clientes : List (Cell × ℚ)
  concentracao : RatioVal
  risco : Risco
deriving DecidableEq

/-- Lines 121-227 given the resolved amount column `v` and customer
column `c`: coercion of the amount column, the three KPIs, the customer
ranking, and the top-5 concentration with its risk tier.  The division
by `faturamento_total` is the float division `fdiv`. -/
def mkOutput (v c : String) (df : DataFrame) : Output :=
  let rows := (coerceValorStep v df).rows
  let fat := (rows.map (fun r => cellNum (r.get v))).sum
  let cls := sortDesc (groupSum (rows.map (fun r => (r.get c, cellNum (r.get v)))))
  let conc := fdiv (((cls.take 5).map Prod.snd).sum) fat
  { faturamento := fat
    qtdNotas := rows.length
    qtdClientes := nunique (rows.map (fun r => r.get c))
    clientes := cls
    concentracao := conc
    risco := riscoOf conc }

/-- The analytics pass: column normalization, date parsing with dropna,
schema resolution, required-field validation (`st.stop` becomes
`Except.error` carrying the `missing` list), then the KPI block. -/
def runPipeline (df0 : DataFrame) : Except (List String) Output :=
  match find_col (normCols df0).cols valorSyns,
        find_col (normCols df0).cols clienteSyns with
  | some v, some c => Except.ok (mkOutput v c (dateFilter (normCols df0)))
  | _, _ => Except.error (missingOf (normCols df0).cols)

/-- Diacritic folding on the Latin-1 lowercase vowels and cedilla of this
domain. Part of the normalization the spec prescribes for the resolver. -/
def stripDiacriticChar (c : Char) : Char :=
  if c = 'á' ∨ c = 'à' ∨ c = 'â' ∨ c = 'ã' then 'a'
  else if c = 'é' ∨ c = 'ê' then 'e'
  else if c = 'í' then 'i'
  else if c = 'ó' ∨ c = 'ô' ∨ c = 'õ' then 'o'
  else if c = 'ú' then 'u'
  else if c = 'ç' then 'c'
  else c

/-- Modelled from the spec (schema-resolver matching algorithm), as the
comparison point for refinement: remove diacritics, case-fold, and strip
whitespace and the separator characters `_`, `-`, and space.  The source
implements only a weaker normalization (`normalizeCol`). -/
def specNormalize (s : String) : String :=
  String.mk (((pyLower s).data.map stripDiacriticChar).filter
    (fun c => ¬(c = ' ' ∨ c = '_' ∨ c = '-')))

def pyUpperChar (c : Char) : Char :=
  if 'a' ≤ c ∧ c ≤ 'z' then Char.ofNat (c.toNat - 32) else c

def pyUpper (s : String) : String := String.mk (s.data.map pyUpperChar)

/-- Modelled from the spec (record normalizer), as the comparison point
for refinement: the customer grouping key the spec prescribes,
trim + uppercase.  The source applies no such normalization. -/
def specCustomerKey (s : String) : String := pyUpper (pyStrip s)

/-- `Series.pct_change().dropna()`: consecutive growth rates
`(v[i] - v[i-1]) / v[i-1]`, one entry per adjacent pair. -/
def pctChange : List ℚ → List ℚ
  | a :: b :: t => (b - a) / a :: pctChange (b :: t)
  | _ => []

/-- `Series.mean()`. -/
def mean (l : List ℚ) : ℚ := l.sum / l.length

/-- The square of `Series.std()` (sample standard deviation, `ddof=1`,
the pandas default used at line 277). -/
def sampleVar (l : List ℚ) : ℚ :=
  (l.map (fun x => (x - mean l) ^ 2)).sum / ((l.length : ℚ) - 1)

/-- Line 287: `crescimento_medio - (volatilidade * 0.75)`. -/
def cenarioConservador (m vol : ℚ) : ℚ := m - vol * 0.75

/-- Line 288: `crescimento_medio`. -/
def cenarioBase (m : ℚ) : ℚ := m

/-- Line 289: `crescimento_medio + (volatilidade * 0.75)`. -/
def cenarioOtimista (m vol : ℚ) : ℚ := m + vol * 0.75

/-- Lines 295-298: `valores = [ultimo_valor]`, then `meses_proj` times
`valores.append(valores[-1] * (1 + taxa))`, returning `valores[1:]`
(the anchor itself is excluded). -/
def projecao (ultimo taxa : ℚ) : ℕ → List ℚ
  | 0 => []
  | n + 1 => ultimo * (1 + taxa) :: projecao (ultimo * (1 + taxa)) taxa n

/-! Concrete frames and expected outputs used by the closed instances. -/

/-- Two rows, one with an unparseable date cell. -/
def dfC2ex : DataFrame :=
  ⟨["data", "total", "cliente"],
   [[("data", Cell.date 0), ("total", Cell.num 10), ("cliente", Cell.str "A")],
    [("data", Cell.str "not a date"), ("total", Cell.num 5),
     ("cliente", Cell.str "B")]]⟩

def outC2ex : Output :=
  { faturamento := 10, qtdNotas := 1, qtdClientes := 1,
    clientes := [(Cell.str "A", 10)], concentracao := RatioVal.fin 1,
    risco := Risco.alto }

/-- Two rows, one with an unparseable amount cell. -/
def dfC3ex : DataFrame :=
  ⟨["total", "cliente"],
   [[("total", Cell.str "abc"), ("cliente", Cell.str "A")],
    [("total", Cell.num 10), ("cliente", Cell.str "B")]]⟩

def outC3ex : Output :=
  { faturamento := 10, qtdNotas := 2, qtdClientes := 2,
    clientes := [(Cell.str "B", 10), (Cell.str "A", 0)],
    concentracao := RatioVal.fin 1, risco := Risco.alto }

/-- One row whose amount is 0, so the summed total is 0. -/
def dfC4ex : DataFrame :=
  ⟨["total", "cliente"], [[("total", Cell.num 0), ("cliente", Cell.str "A")]]⟩

def outC4ex : Output :=
  { faturamento := 0, qtdNotas := 1, qtdClientes := 1,
    clientes := [(Cell.str "A", 0)], concentracao := RatioVal.nan,
    risco := Risco.baixo }

/-- Six rows whose amounts sum to 0 while the top-5 customer sum is
positive: five customers at 10 and one at -50. -/
def dfC4inf : DataFrame :=
  ⟨["total", "cliente"],
   [[("total", Cell.num 10), ("cliente", Cell.str "A")],
    [("total", Cell.num 10), ("cliente", Cell.str "B")],
    [("total", Cell.num 10), ("cliente", Cell.str "C")],
    [("total", Cell.num 10), ("cliente", Cell.str "D")],
    [("total", Cell.num 10), ("cliente", Cell.str "E")],
    [("total", Cell.num (-50)), ("cliente", Cell.str "F")]]⟩

def outC4inf : Output :=
  { faturamento := 0, qtdNotas := 6, qtdClientes := 6,
    clientes := [(Cell.str "A", 10), (Cell.str "B", 10), (Cell.str "C", 10),
      (Cell.str "D", 10), (Cell.str "E", 10), (Cell.str "F", -50)],
    concentracao := RatioVal.posInf, risco := Risco.alto }

/-- A file with a customer column named `cliente` and no amount column. -/
def dfC8exA : DataFrame := ⟨["cliente"], [[("cliente", Cell.str "X")]]⟩

/-- A file with a customer column named `razao_social` and no amount
column: the detected source columns differ from `dfC8exA`. -/
def dfC8exB : DataFrame :=
  ⟨["razao_social"], [[("razao_social", Cell.str "X")]]⟩

/-- One row whose customer value carries surrounding spaces and lower
case. -/
def dfC9ex : DataFrame :=
  ⟨["cliente", "total"],
   [[("cliente", Cell.str " acme "), ("total", Cell.num 10)]]⟩

def outC9ex : Output :=
  { faturamento := 10, qtdNotas := 1, qtdClientes := 1,
    clientes := [(Cell.str " acme ", 10)], concentracao := RatioVal.fin 1,
    risco := Risco.alto }

/-- A file with no customer column at all. -/
def dfC9noCliente : DataFrame := ⟨["total"], [[("total", Cell.num 5)]]⟩

/-- Two distinct customers, positive total. -/
def dfC10ex : DataFrame :=
  ⟨["total", "cliente"],
   [[("total", Cell.num 60), ("cliente", Cell.str "A")],
    [("total", Cell.num 40), ("cliente", Cell.str "B")]]⟩

def outC10ex : Output :=
  { faturamento := 100, qtdNotas := 2, qtdClientes := 2,
    clientes := [(Cell.str "A", 60), (Cell.str "B", 40)],
    concentracao := RatioVal.fin 1, risco := Risco.alto }

/-- Series used by the ABC-invariant witness. -/
def serC6ex : List (Cell × ℚ) := [(Cell.str "A", 3), (Cell.str "B", 1)]

/-! ### Helper lemmas -/

theorem find_col_mem {cols opts : List String} {x : String}
    (h : find_col cols opts = some x) : x ∈ opts := by
  induction opts with
  | nil => simp [find_col] at h
  | cons p ps ih =>
    rw [find_col] at h
    by_cases hp : cols.contains p
    · rw [if_pos hp] at h
      simp only [Option.some.injEq] at h
      simp [h]
    · rw [if_neg hp] at h
      exact List.mem_cons_of_mem _ (ih h)

theorem find_col_isSome_iff {cols opts : List String} :
    (find_col cols opts).isSome ↔ ∃ p ∈ opts, p ∈ cols := by
  induction opts with
  | nil => simp [find_col]
  | cons p ps ih =>
    rw [find_col]
    by_cases hp : cols.contains p
    · rw [if_pos hp]
      simp only [Option.isSome_some, true_iff]
      exact ⟨p, List.mem_cons_self p ps, List.elem_iff.mp hp⟩
    · rw [if_neg hp]
      rw [ih]
      constructor
      · rintro ⟨q, hq, hq2⟩
        exact ⟨q, List.mem_cons_of_mem _ hq, hq2⟩
      · rintro ⟨q, hq, hq2⟩
        rcases List.mem_cons.mp hq with rfl | hq
        · exact absurd (List.elem_iff.mpr hq2) hp
        · exact ⟨q, hq, hq2⟩

theorem dateFilter_cols (df : DataFrame) : (dateFilter df).cols = df.cols := by
  cases h : find_col df.cols dataSyns <;> simp [dateFilter, h]

theorem dateFilter_rows_of_some {df : DataFrame} {d : String}
    (h : find_col df.cols dataSyns = some d) :
    (dateFilter df).rows
      = df.rows.filter (fun r => (toDatetimeCoerce (r.get d)).isSome) := by
  simp [dateFilter, h]

theorem runPipeline_ok {df : DataFrame} {v c : String}
    (hv : find_col (normCols df).cols valorSyns = some v)
    (hc : find_col (normCols df).cols clienteSyns = some c) :
    runPipeline df = Except.ok (mkOutput v c (dateFilter (normCols df))) := by
  rw [runPipeline, hv, hc]

theorem runPipeline_err {df : DataFrame}
    (h : find_col (normCols df).cols valorSyns = none
       ∨ find_col (normCols df).cols clienteSyns = none) :
    runPipeline df = Except.error (missingOf (normCols df).cols) := by
  rw [runPipeline]
  rcases h with h | h
  · rw [h]
  · rw [h]
    cases find_col (normCols df).cols valorSyns <;> rfl

theorem synsFor_valor : synsFor "valor" = valorSyns := rfl

theorem synsFor_cliente : synsFor "cliente" = clienteSyns := rfl

theorem missingOf_eq (cols : List String) : missingOf cols =
    (if (find_col cols valorSyns).isNone then ["valor"] else [])
      ++ (if (find_col cols clienteSyns).isNone then ["cliente"] else []) := by
  rw [missingOf, required_cols, List.filter, List.filter, List.filter,
    synsFor_valor, synsFor_cliente]
  cases h1 : (find_col cols valorSyns).isNone
    <;> cases h2 : (find_col cols clienteSyns).isNone <;> simp [h1, h2]

theorem Row_get_set_self (r : Row) (c : String) (x : Cell) :
    Row.get (Row.set r c x) c
      = if (r.find? (fun p => p.1 == c)).isSome then x else Cell.null := by
  induction r with
  | nil => simp [Row.get, Row.set]
  | cons p t ih =>
    rw [Row.set, List.map]
    by_cases hp : p.1 == c
    · rw [if_pos hp]
      rw [Row.get, List.find?]
      simp only [hp]
      rw [List.find?, hp]
      simp
    · rw [if_neg hp]
      rw [Row.get, List.find?, Bool.of_not_eq_true hp]
      rw [List.find?, Bool.of_not_eq_true hp]
      exact ih

theorem Row_get_set_ne (r : Row) {c e : String} (h : e ≠ c) (x : Cell) :
    Row.get (Row.set r c x) e = Row.get r e := by
  induction r with
  | nil => simp [Row.get, Row.set]
  | cons p t ih =>
    rw [Row.set, List.map]
    by_cases hp : p.1 == c
    · rw [if_pos hp]
      have hpc : p.1 = c := by simpa using hp
      have hne : ¬((p.1 : String) == e) := by
        simp [hpc]
        exact fun hh => h hh.symm
      rw [Row.get, List.find?]
      simp only [hne]
      rw [Row.get, List.find?]
      simp only [hne]
      exact ih
    · rw [if_neg hp]
      rw [Row.get, List.find?]
      rw [Row.get, List.find?]
      by_cases he : p.1 == e
      · simp [he]
      · simp only [Bool.of_not_eq_true he]
        exact ih

theorem cellNum_coerceRow (v : String) (r : Row) :
    cellNum ((coerceRow v r).get v) = valorOf v r := by
  rw [coerceRow, Row_get_set_self]
  by_cases h : (r.find? (fun p => p.1 == v)).isSome
  · rw [if_pos h, cellNum, valorOf]
  · rw [if_neg h]
    have : r.get v = Cell.null := by
      rw [Row.get]
      rw [Option.not_isSome_iff_eq_none] at h
      rw [h]
      rfl
    rw [valorOf, this]
    rfl

theorem coerceRow_get_ne {e v : String} (h : e ≠ v) (r : Row) :
    (coerceRow v r).get e = r.get e := Row_get_set_ne r h _

/-- All the fields of the KPI block, expressed over the uncoerced rows:
the amount coercion drops no row, leaves every other column unchanged,
and reads back as `to_numeric(errors="coerce").fillna(0)`. -/
theorem mkOutput_eq {v c : String} (hne : c ≠ v) (df : DataFrame) :
    mkOutput v c df =
      { faturamento := (df.rows.map (valorOf v)).sum
        qtdNotas := df.rows.length
        qtdClientes := nunique (df.rows.map (fun r => r.get c))
        clientes := sortDesc (groupSum
          (df.rows.map (fun r => (r.get c, valorOf v r))))
        concentracao := fdiv ((((sortDesc (groupSum
            (df.rows.map (fun r => (r.get c, valorOf v r))))).take 5).map
              Prod.snd).sum) ((df.rows.map (valorOf v)).sum)
        risco := riscoOf (fdiv ((((sortDesc (groupSum
            (df.rows.map (fun r => (r.get c, valorOf v r))))).take 5).map
              Prod.snd).sum) ((df.rows.map (valorOf v)).sum)) } := by
  have hfat : ((df.rows.map (coerceRow v)).map (fun r => cellNum (r.get v))).sum
      = (df.rows.map (valorOf v)).sum := by
    rw [List.map_map]
    congr 1
    exact List.map_congr_left (fun r _ => cellNum_coerceRow v r)
  have hpairs : (df.rows.map (coerceRow v)).map
        (fun r => (r.get c, cellNum (r.get v)))
      = df.rows.map (fun r => (r.get c, valorOf v r)) := by
    rw [List.map_map]
    exact List.map_congr_left (fun r _ => by
      simp only [Function.comp]
      rw [coerceRow_get_ne hne, cellNum_coerceRow])
  have hcli : (df.rows.map (coerceRow v)).map (fun r => r.get c)
      = df.rows.map (fun r => r.get c) := by
    rw [List.map_map]
    exact List.map_congr_left (fun r _ => coerceRow_get_ne hne r)
  rw [mkOutput]
  simp only [coerceValorStep, hfat, hpairs, hcli, List.length_map]

theorem sortDesc_perm (l : List (Cell × ℚ)) : List.Perm (sortDesc l) l :=
  List.perm_insertionSort valGe l

theorem sortDesc_totalOf (l : List (Cell × ℚ)) :
    totalOf (sortDesc l) = totalOf l := by
  rw [totalOf, totalOf]
  exact ((sortDesc_perm l).map Prod.snd).sum_eq

theorem sortDesc_length (l : List (Cell × ℚ)) :
    (sortDesc l).length = l.length := (sortDesc_perm l).length_eq

theorem sortDesc_sorted (l : List (Cell × ℚ)) :
    (sortDesc l).Pairwise valGe := List.sorted_insertionSort valGe l

theorem sortDesc_mem {l : List (Cell × ℚ)} {p : Cell × ℚ}
    (h : p ∈ sortDesc l) : p ∈ l := (sortDesc_perm l).mem_iff.mp h

theorem sum_map_div (l : List ℚ) (T : ℚ) :
    (l.map (fun x => x / T)).sum = l.sum / T := by
  induction l with
  | nil => simp
  | cons x t ih => simp [ih, add_div]

theorem sum_nonpos_of (l : List ℚ) (h : ∀ a ∈ l, a ≤ 0) : l.sum ≤ 0 := by
  induction l with
  | nil => simp
  | cons x t ih =>
    rw [List.sum_cons]
    have hx := h x (List.mem_cons_self x t)
    have ht := ih (fun a ha => h a (List.mem_cons_of_mem x ha))
    linarith

/-- Entries on which `f` vanishes contribute nothing to the mapped sum. -/
theorem sum_map_eq_sum_filter {α : Type} (q : α → Bool) (f : α → ℚ)
    (l : List α) (h : ∀ x ∈ l, q x = false → f x = 0) :
    (l.map f).sum = ((l.filter q).map f).sum := by
  induction l with
  | nil => simp
  | cons x t ih =>
    have ht := ih (fun a ha => h a (List.mem_cons_of_mem x ha))
    rw [List.map_cons, List.sum_cons, List.filter]
    cases hq : q x with
    | true => rw [List.map_cons, List.sum_cons, ht]
    | false =>
      rw [h x (List.mem_cons_self x t) hq, zero_add, ht]

theorem addTo_snd_sum (acc : List (Cell × ℚ)) (k : Cell) (q : ℚ) :
    ((addTo acc k q).map Prod.snd).sum = (acc.map Prod.snd).sum + q := by
  induction acc with
  | nil => simp [addTo]
  | cons p t ih =>
    rw [addTo]
    by_cases hk : p.1 = k
    · rw [if_pos hk]
      simp [add_assoc, add_comm q p.2]
      ring
    · rw [if_neg hk]
      simp only [List.map_cons, List.sum_cons, ih]
      ring

theorem groupSum_snd_sum (l : List (Cell × ℚ))
    (h : ∀ p ∈ l, p.1 ≠ Cell.null) :
    ((groupSum l).map Prod.snd).sum = (l.map Prod.snd).sum := by
  suffices haux : ∀ (acc : List (Cell × ℚ)),
      (∀ p ∈ l, p.1 ≠ Cell.null) →
      ((l.foldl (fun acc p =>
          if p.1 = Cell.null then acc else addTo acc p.1 p.2) acc).map
        Prod.snd).sum = (acc.map Prod.snd).sum + (l.map Prod.snd).sum by
    have := haux [] h
    simpa [groupSum] using this
  clear h
  induction l with
  | nil => intro acc _; simp
  | cons p t ih =>
    intro acc h
    rw [List.foldl_cons]
    rw [if_neg (h p (List.mem_cons_self p t))]
    rw [ih (addTo acc p.1 p.2) (fun a ha => h a (List.mem_cons_of_mem p ha))]
    rw [addTo_snd_sum]
    simp only [List.map_cons, List.sum_cons]
    ring

theorem addTo_fst_mem {acc : List (Cell × ℚ)} {k : Cell} {q : ℚ} {x : Cell}
    (h : x ∈ (addTo acc k q).map Prod.fst) :
    x ∈ acc.map Prod.fst ∨ x = k := by
  induction acc with
  | nil => simpa [addTo] using h
  | cons p t ih =>
    rw [addTo] at h
    by_cases hk : p.1 = k
    · rw [if_pos hk] at h
      simp only [List.map_cons, List.mem_cons] at h ⊢
      rcases h with h | h
      · exact Or.inl (Or.inl h)
      · exact Or.inl (Or.inr h)
    · rw [if_neg hk] at h
      simp only [List.map_cons, List.mem_cons] at h ⊢
      rcases h with h | h
      · exact Or.inl (Or.inl h)
      · rcases ih h with h | h
        · exact Or.inl (Or.inr h)
        · exact Or.inr h

theorem groupSum_fst_mem {l : List (Cell × ℚ)} {x : Cell}
    (h : x ∈ (groupSum l).map Prod.fst) : x ∈ l.map Prod.fst := by
  suffices haux : ∀ (acc : List (Cell × ℚ)),
      x ∈ ((l.foldl (fun acc p =>
          if p.1 = Cell.null then acc else addTo acc p.1 p.2) acc).map
        Prod.fst) → x ∈ acc.map Prod.fst ∨ x ∈ l.map Prod.fst by
    rcases haux [] h with hc | hc
    · simp at hc
    · exact hc
  clear h
  induction l with
  | nil => intro acc h; exact Or.inl h
  | cons p t ih =>
    intro acc h
    rw [List.foldl_cons] at h
    by_cases hp : p.1 = Cell.null
    · rw [if_pos hp] at h
      rcases ih _ h with h | h
      · exact Or.inl h
      · exact Or.inr (by simpa using Or.inr (by simpa using h))
    · rw [if_neg hp] at h
      rcases ih _ h with h | h
      · rcases addTo_fst_mem h with h | h
        · exact Or.inl h
        · exact Or.inr (by simp [h])
      · exact Or.inr (by simpa using Or.inr (by simpa using h))

theorem rank_le_two (s : String) : rank s ≤ 2 := by
  rw [rank]
  split_ifs <;> omega

theorem classifica_mono {u w : ℚ} (h : u ≤ w) :
    rank (classifica_abc u) ≤ rank (classifica_abc w) := by
  rw [classifica_abc, classifica_abc]
  by_cases h1 : u ≤ 0.8
  · rw [if_pos h1]
    have hA : rank "A" = 0 := by decide
    rw [hA]
    exact Nat.zero_le _
  · rw [if_neg h1]
    have hw1 : ¬w ≤ 0.8 := fun hw => h1 (le_trans h hw)
    rw [if_neg hw1]
    by_cases h2 : u ≤ 0.95
    · rw [if_pos h2]
      by_cases hw2 : w ≤ 0.95
      · rw [if_pos hw2]
      · rw [if_neg hw2]
        decide
    · rw [if_neg h2]
      have hw2 : ¬w ≤ 0.95 := fun hw => h2 (le_trans h hw)
      rw [if_neg hw2]

theorem classifica_of_ge_one {x : ℚ} (h : 1 ≤ x) : classifica_abc x = "C" := by
  rw [classifica_abc]
  split_ifs with h1 h2
  · linarith [h1.trans_lt (by norm_num : (0.8 : ℚ) < 1)]
  · linarith [h2.trans_lt (by norm_num : (0.95 : ℚ) < 1)]
  · rfl

/-- The ABC class sequence along a descending-sorted share list is
monotone even in the presence of negative entries: once a negative share
appears, the running total already sits at or above 1, hence in class C. -/
theorem chain_rank_cumsum (s : List ℚ) (acc : ℚ)
    (hs : s.Pairwise (fun a b => b ≤ a)) (hsum : acc + s.sum = 1) :
    List.Chain' (fun a b => rank a ≤ rank b)
      ((cumsum acc s).map classifica_abc) := by
  induction s generalizing acc with
  | nil => simp [cumsum]
  | cons x t ih =>
    cases t with
    | nil => simp [cumsum]
    | cons y t2 =>
      rw [cumsum, cumsum, List.map_cons, List.map_cons]
      have hs2 : (y :: t2).Pairwise (fun a b : ℚ => b ≤ a) := hs.of_cons
      have hsum2 : (acc + x) + (y :: t2).sum = 1 := by
        simp only [List.sum_cons] at hsum ⊢
        linarith
      have htail := ih (acc + x) hs2 hsum2
      rw [cumsum, List.map_cons] at htail
      refine List.chain'_cons.mpr ⟨?_, htail⟩
      by_cases hy : 0 ≤ y
      · exact classifica_mono (by linarith)
      · have hty : ∀ a ∈ t2, a ≤ 0 := by
          intro a ha
          have := (List.pairwise_cons.mp hs2).1 a ha
          linarith
        have htsum := sum_nonpos_of t2 hty
        have h1 : 1 ≤ acc + x + y := by
          simp only [List.sum_cons] at hsum
          linarith
        rw [classifica_of_ge_one h1]
        have hC : rank "C" = 2 := by decide
        rw [hC]
        exact rank_le_two _

theorem valor_cliente_ne {v c : String}
    (hv : v ∈ valorSyns) (hc : c ∈ clienteSyns) : c ≠ v := by
  intro he
  subst he
  rw [valorSyns] at hv
  rw [clienteSyns] at hc
  simp only [List.mem_cons, List.not_mem_nil, or_false] at hv hc
  rcases hv with rfl | rfl | rfl
    <;> rcases hc with h | h | h <;> exact absurd h (by decide)

theorem Row_get_nil (c : String) : Row.get [] c = Cell.null := rfl

theorem Row_get_cons (k : String) (x : Cell) (t : List (String × Cell))
    (c : String) :
    Row.get ((k, x) :: t) c = if k == c then x else Row.get t c := by
  rw [Row.get, List.find?]
  cases h : (k == c) <;> simp [h, Row.get]

theorem run_dfC4ex : runPipeline dfC4ex = Except.ok outC4ex := by
  have h1 : find_col (normCols dfC4ex).cols valorSyns = some "total" := by decide
  have h2 : find_col (normCols dfC4ex).cols clienteSyns = some "cliente" := by
    decide
  have hdf : dateFilter (normCols dfC4ex)
      = ⟨["total", "cliente"],
         [[("total", Cell.num 0), ("cliente", Cell.str "A")]]⟩ := by decide
  rw [runPipeline_ok h1 h2, hdf]
  rw [mkOutput_eq (by decide : ("cliente" : String) ≠ "total")]
  simp [valorOf, Row_get_cons, Row_get_nil, toNumericCoerce, groupSum,
    addTo, sortDesc, nunique, List.filter, List.dedup, riscoOf, fdiv, outC4ex]

theorem run_dfC4inf : runPipeline dfC4inf = Except.ok outC4inf := by
  have h1 : find_col (normCols dfC4inf).cols valorSyns = some "total" := by
    decide
  have h2 : find_col (normCols dfC4inf).cols clienteSyns = some "cliente" := by
    decide
  have hdf : dateFilter (normCols dfC4inf) = dfC4inf := by decide
  rw [runPipeline_ok h1 h2, hdf]
  rw [mkOutput_eq (by decide : ("cliente" : String) ≠ "total")]
  simp [valorOf, Row_get_cons, Row_get_nil, toNumericCoerce, groupSum,
    addTo, sortDesc, List.orderedInsert, nunique, List.filter, List.dedup,
    riscoOf, fdiv, outC4inf, dfC4inf, valGe]
  have hz : (10 : ℚ) + (10 + (10 + (10 + (10 + -50)))) = 0 := by norm_num
  have hp : (0 : ℚ) < 10 + (10 + (10 + (10 + 10))) := by norm_num
  refine ⟨hz, by decide, ?_, ?_⟩
  · rw [if_pos hz, if_pos hp]
  · rw [if_pos hz, if_pos hp]

theorem run_dfC2ex : runPipeline dfC2ex = Except.ok outC2ex := by
  have h1 : find_col (normCols dfC2ex).cols valorSyns = some "total" := by decide
  have h2 : find_col (normCols dfC2ex).cols clienteSyns = some "cliente" := by
    decide
  have hdf : dateFilter (normCols dfC2ex)
      = ⟨["data", "total", "cliente"],
         [[("data", Cell.date 0), ("total", Cell.num 10),
           ("cliente", Cell.str "A")]]⟩ := by decide
  rw [runPipeline_ok h1 h2, hdf]
  rw [mkOutput_eq (by decide : ("cliente" : String) ≠ "total")]
  simp [valorOf, Row_get_cons, Row_get_nil, toNumericCoerce, groupSum,
    addTo, sortDesc, nunique, List.filter, List.dedup, riscoOf, fdiv, outC2ex]
  all_goals norm_num

theorem run_dfC3ex : runPipeline dfC3ex = Except.ok outC3ex := by
  have h1 : find_col (normCols dfC3ex).cols valorSyns = some "total" := by decide
  have h2 : find_col (normCols dfC3ex).cols clienteSyns = some "cliente" := by
    decide
  have hdf : dateFilter (normCols dfC3ex) = dfC3ex := by decide
  rw [runPipeline_ok h1 h2, hdf]
  rw [mkOutput_eq (by decide : ("cliente" : String) ≠ "total")]
  simp [valorOf, Row_get_cons, Row_get_nil, toNumericCoerce, groupSum,
    addTo, sortDesc, List.orderedInsert, nunique, List.filter, List.dedup,
    riscoOf, fdiv, outC3ex, dfC3ex, valGe]
  all_goals norm_num

theorem run_dfC9ex : runPipeline dfC9ex = Except.ok outC9ex := by
  have h1 : find_col (normCols dfC9ex).cols valorSyns = some "total" := by decide
  have h2 : find_col (normCols dfC9ex).cols clienteSyns = some "cliente" := by
    decide
  have hdf : dateFilter (normCols dfC9ex) = dfC9ex := by decide
  rw [runPipeline_ok h1 h2, hdf]
  rw [mkOutput_eq (by decide : ("cliente" : String) ≠ "total")]
  simp [valorOf, Row_get_cons, Row_get_nil, toNumericCoerce, groupSum,
    addTo, sortDesc, nunique, List.filter, List.dedup, riscoOf, fdiv, outC9ex,
    dfC9ex]
  all_goals norm_num

theorem run_dfC10ex : runPipeline dfC10ex = Except.ok outC10ex := by
  have h1 : find_col (normCols dfC10ex).cols valorSyns = some "total" := by
    decide
  have h2 : find_col (normCols dfC10ex).cols clienteSyns = some "cliente" := by
    decide
  have hdf : dateFilter (normCols dfC10ex) = dfC10ex := by decide
  rw [runPipeline_ok h1 h2, hdf]
  rw [mkOutput_eq (by decide : ("cliente" : String) ≠ "total")]
  simp [valorOf, Row_get_cons, Row_get_nil, toNumericCoerce, groupSum,
    addTo, sortDesc, List.orderedInsert, nunique, List.filter, List.dedup,
    riscoOf, fdiv, outC10ex, dfC10ex, valGe]
  all_goals norm_num

theorem run_dfC8exA : runPipeline dfC8exA = Except.error ["valor"] := by
  have h1 : find_col (normCols dfC8exA).cols valorSyns = none := by decide
  have hm : missingOf (normCols dfC8exA).cols = ["valor"] := by decide
  rw [runPipeline_err (Or.inl h1), hm]

theorem run_dfC8exB : runPipeline dfC8exB = Except.error ["valor"] := by
  have h1 : find_col (normCols dfC8exB).cols valorSyns = none := by decide
  have hm : missingOf (normCols dfC8exB).cols = ["valor"] := by decide
  rw [runPipeline_err (Or.inl h1), hm]

theorem run_dfC9noCliente :
    runPipeline dfC9noCliente = Except.error ["cliente"] := by
  have h1 : find_col (normCols dfC9noCliente).cols clienteSyns = none := by
    decide
  have hm : missingOf (normCols dfC9noCliente).cols = ["cliente"] := by decide
  rw [runPipeline_err (Or.inr h1), hm]

/-! ### Claim theorems -/

/-- Claim C1, counterexample: the column name "RAZAOSOCIAL" differs from
the synonym "razao_social" only by letter case and removal of the
separator `_` (their spec-prescribed normal forms agree), yet the
resolver maps the customer field to absent on a file carrying it. -/
theorem C1_counterexample :
    specNormalize "RAZAOSOCIAL" = specNormalize "razao_social"
    ∧ "razao_social" ∈ clienteSyns
    ∧ find_col ((["RAZAOSOCIAL", "Total", "Data"]).map normalizeCol)
        clienteSyns = none := by
  refine ⟨by decide, by decide, by decide⟩

/-- Claim C1, amended: schema resolution is insensitive to letter case,
surrounding whitespace, and internal spaces (which normalize to `_`): any
actual column whose lower-cased, stripped, space-to-underscore form
equals a customer synonym resolves; it is not insensitive to diacritics
or to the separators themselves, so "Razão Social/Nome" and
"razao_social" resolve to the customer field while "RAZAOSOCIAL"
resolves to absent. -/
theorem C1_resolver_normalization :
    (∀ (cols : List String) (a : String), a ∈ cols →
        normalizeCol a ∈ clienteSyns →
        (find_col (cols.map normalizeCol) clienteSyns).isSome)
    ∧ find_col (["Razão Social/Nome"].map normalizeCol) clienteSyns
        = some "razão_social/nome"
    ∧ find_col (["razao_social"].map normalizeCol) clienteSyns
        = some "razao_social"
    ∧ find_col (["RAZAOSOCIAL"].map normalizeCol) clienteSyns = none := by
  refine ⟨?_, by decide, by decide, by decide⟩
  intro cols a ha hmem
  rw [find_col_isSome_iff]
  exact ⟨normalizeCol a, hmem, List.mem_map_of_mem normalizeCol ha⟩

/-- Claim C1, witness: the accented, space-separated header resolves. -/
theorem C1_witness :
    (find_col (["Razão Social/Nome"].map normalizeCol) clienteSyns).isSome :=
  C1_resolver_normalization.1 ["Razão Social/Nome"] "Razão Social/Nome"
    (by decide) (by decide)

/-- Claim C4, counterexample: on a dataset whose summed amount is 0 the
concentration ratio is a non-finite float of the zero division (here the
NaN of 0.0/0.0), not the value 0 the claim asserts. -/
theorem C4_counterexample :
    runPipeline dfC4ex = Except.ok outC4ex
    ∧ outC4ex.concentracao = RatioVal.nan
    ∧ outC4ex.concentracao ≠ RatioVal.fin 0 :=
  ⟨run_dfC4ex, rfl, by decide⟩

/-- Claim C4, amended: when total revenue is 0 the top-5 concentration
ratio is never 0, nor any finite value: the unguarded division yields a
non-finite float, by the sign of the top-5 sum — NaN when that sum is
also 0, and then the risk comparisons all fail and the low tier is
reported; `+inf` when it is positive, and then `inf > 0.60` holds and
the HIGH tier is reported; `-inf` when it is negative, reported low.
No exception is raised: the run completes. -/
theorem C4_zero_total_nonfinite (df : DataFrame) (v c : String)
    (hv : find_col (normCols df).cols valorSyns = some v)
    (hc : find_col (normCols df).cols clienteSyns = some c)
    (out : Output) (hout : runPipeline df = Except.ok out)
    (hfat : out.faturamento = 0) :
    out.concentracao = fdiv (((out.clientes.take 5).map Prod.snd).sum) 0
    ∧ (∀ q : ℚ, out.concentracao ≠ RatioVal.fin q)
    ∧ (((out.clientes.take 5).map Prod.snd).sum = 0 →
        out.concentracao = RatioVal.nan ∧ out.risco = Risco.baixo)
    ∧ (0 < ((out.clientes.take 5).map Prod.snd).sum →
        out.concentracao = RatioVal.posInf ∧ out.risco = Risco.alto)
    ∧ (((out.clientes.take 5).map Prod.snd).sum < 0 →
        out.concentracao = RatioVal.negInf ∧ out.risco = Risco.baixo) := by
  have hne : c ≠ v := valor_cliente_ne (find_col_mem hv) (find_col_mem hc)
  rw [runPipeline_ok hv hc] at hout
  injection hout with hout
  subst hout
  rw [mkOutput_eq hne] at hfat ⊢
  simp only at hfat ⊢
  rw [hfat]
  refine ⟨rfl, ?_, ?_, ?_, ?_⟩
  · intro q
    rw [fdiv, if_pos rfl]
    split_ifs <;> exact fun h => RatioVal.noConfusion h
  · intro hS
    rw [fdiv, if_pos rfl, if_neg (by rw [hS]; exact lt_irrefl 0),
      if_neg (by rw [hS]; exact lt_irrefl 0)]
    exact ⟨rfl, rfl⟩
  · intro hS
    rw [fdiv, if_pos rfl, if_pos hS]
    exact ⟨rfl, rfl⟩
  · intro hS
    rw [fdiv, if_pos rfl, if_neg (not_lt.mpr (le_of_lt hS)), if_pos hS]
    exact ⟨rfl, rfl⟩

/-- Claim C4, witness: the amended statement exercised at two concrete
zero-total datasets — one whose top-5 sum is also 0 (NaN, low tier) and
one whose top-5 sum is 50 (`+inf`, high tier). -/
theorem C4_witness :
    (outC4ex.concentracao = RatioVal.nan ∧ outC4ex.risco = Risco.baixo)
    ∧ (outC4inf.concentracao = RatioVal.posInf
        ∧ outC4inf.risco = Risco.alto) :=
  ⟨(C4_zero_total_nonfinite dfC4ex "total" "cliente" (by decide) (by decide)
      outC4ex run_dfC4ex (by decide)).2.2.1 (by norm_num [outC4ex]),
    (C4_zero_total_nonfinite dfC4inf "total" "cliente" (by decide) (by decide)
      outC4inf run_dfC4inf (by decide)).2.2.2.1 (by norm_num [outC4inf])⟩

/-- Claim C5: the ABC classifier returns A exactly when the cumulative
share is at most 0.80, B exactly when it lies in (0.80, 0.95], and C
exactly above 0.95; in particular 0.80 maps to A, 0.80000001 to B, 0.95
to B and 0.9500001 to C. -/
theorem C5_abc_thresholds : ∀ x : ℚ,
    (classifica_abc x = "A" ↔ x ≤ 0.8)
    ∧ (classifica_abc x = "B" ↔ 0.8 < x ∧ x ≤ 0.95)
    ∧ (classifica_abc x = "C" ↔ 0.95 < x)
    ∧ classifica_abc 0.8 = "A"
    ∧ classifica_abc 0.80000001 = "B"
    ∧ classifica_abc 0.95 = "B"
    ∧ classifica_abc 0.9500001 = "C" := by
  have cA : classifica_abc 0.8 = "A" := by
    rw [classifica_abc, if_pos (le_refl (0.8 : ℚ))]
  have cB1 : classifica_abc 0.80000001 = "B" := by
    rw [classifica_abc, if_neg (by norm_num), if_pos (by norm_num)]
  have cB2 : classifica_abc 0.95 = "B" := by
    rw [classifica_abc, if_neg (by norm_num), if_pos (le_refl (0.95 : ℚ))]
  have cC : classifica_abc 0.9500001 = "C" := by
    rw [classifica_abc, if_neg (by norm_num), if_neg (by norm_num)]
  intro x
  rw [classifica_abc]
  split_ifs with h1 h2
  · exact ⟨by simp [h1],
      ⟨iff_of_false (by decide) (fun hh => absurd h1 (not_le.mpr hh.1)),
        iff_of_false (by decide) (fun hh => absurd h1 (by norm_num; linarith)),
        cA, cB1, cB2, cC⟩⟩
  · exact ⟨iff_of_false (by decide) h1,
      ⟨iff_of_true rfl ⟨lt_of_not_le h1, h2⟩,
        iff_of_false (by decide) (fun hh => absurd h2 (not_le.mpr hh)),
        cA, cB1, cB2, cC⟩⟩
  · exact ⟨iff_of_false (by decide) (fun hh => h2 (by linarith)),
      ⟨iff_of_false (by decide) (fun hh => h2 hh.2),
        iff_of_true rfl (lt_of_not_le h2),
        cA, cB1, cB2, cC⟩⟩

/-- Claim C5, witness: the classifier evaluated at 0.9. -/
theorem C5_witness : classifica_abc 0.9 = "B" :=
  (C5_abc_thresholds 0.9).2.1.mpr (by norm_num)

/-- Claim C2, counterexample: on a two-row file whose second row has an
unparseable date, the pipeline's date-independent KPIs (total revenue,
row count, distinct customers) are computed over one row only — the row
was dropped, not kept with a null date. -/
theorem C2_counterexample :
    runPipeline dfC2ex = Except.ok outC2ex
    ∧ dfC2ex.rows.length = 2
    ∧ outC2ex.qtdNotas = 1
    ∧ outC2ex.faturamento = 10
    ∧ outC2ex.qtdClientes = 1 :=
  ⟨run_dfC2ex, rfl, rfl, rfl, rfl⟩

/-- Claim C2, amended: when a date column is mapped, a row whose date
fails to parse is dropped from the whole dataset before any aggregation,
so total revenue, row count and distinct customer count all range over
only the rows whose date parsed (no row-level exception occurs: the run
still returns a result). -/
theorem C2_unparseable_date_drops_row (df : DataFrame) (d v c : String)
    (hd : find_col (normCols df).cols dataSyns = some d)
    (hv : find_col (normCols df).cols valorSyns = some v)
    (hc : find_col (normCols df).cols clienteSyns = some c) :
    ∃ out, runPipeline df = Except.ok out
      ∧ out.qtdNotas = ((normCols df).rows.filter
          (fun r => (toDatetimeCoerce (r.get d)).isSome)).length
      ∧ out.faturamento = (((normCols df).rows.filter
          (fun r => (toDatetimeCoerce (r.get d)).isSome)).map (valorOf v)).sum
      ∧ out.qtdClientes = nunique (((normCols df).rows.filter
          (fun r => (toDatetimeCoerce (r.get d)).isSome)).map
            (fun r => r.get c)) := by
  have hne : c ≠ v := valor_cliente_ne (find_col_mem hv) (find_col_mem hc)
  refine ⟨mkOutput v c (dateFilter (normCols df)), runPipeline_ok hv hc,
    ?_, ?_, ?_⟩
  · rw [mkOutput_eq hne]
    simp only
    rw [dateFilter_rows_of_some hd]
  · rw [mkOutput_eq hne]
    simp only
    rw [dateFilter_rows_of_some hd]
  · rw [mkOutput_eq hne]
    simp only
    rw [dateFilter_rows_of_some hd]

/-- Claim C2, witness: the amended statement at the concrete two-row
file. -/
theorem C2_witness :
    ∃ out, runPipeline dfC2ex = Except.ok out
      ∧ out.qtdNotas = ((normCols dfC2ex).rows.filter
          (fun r => (toDatetimeCoerce (r.get "data")).isSome)).length
      ∧ out.faturamento = (((normCols dfC2ex).rows.filter
          (fun r => (toDatetimeCoerce (r.get "data")).isSome)).map
            (valorOf "total")).sum
      ∧ out.qtdClientes = nunique (((normCols dfC2ex).rows.filter
          (fun r => (toDatetimeCoerce (r.get "data")).isSome)).map
            (fun r => r.get "cliente")) :=
  C2_unparseable_date_drops_row dfC2ex "data" "total" "cliente"
    (by decide) (by decide) (by decide)

/-- Claim C3: the amount coercion drops no row (row count and the
customer column, hence every distinct count, are unchanged), and a row
whose amount cell fails numeric parsing reads back as 0, so the summed
total equals the sum over only the rows whose amount parsed. -/
theorem C3_amount_coercion (v c : String) (hne : c ≠ v) (df : DataFrame) :
    (coerceValorStep v df).rows.length = df.rows.length
    ∧ ((coerceValorStep v df).rows.map (fun r => r.get c))
        = df.rows.map (fun r => r.get c)
    ∧ (∀ r ∈ df.rows, toNumericCoerce (r.get v) = none →
        cellNum ((coerceRow v r).get v) = 0)
    ∧ ((coerceValorStep v df).rows.map (fun r => cellNum (r.get v))).sum
        = ((df.rows.filter
            (fun r => (toNumericCoerce (r.get v)).isSome)).map
              (valorOf v)).sum := by
  refine ⟨by simp [coerceValorStep], ?_, ?_, ?_⟩
  · rw [coerceValorStep]
    simp only
    rw [List.map_map]
    exact List.map_congr_left (fun r _ => coerceRow_get_ne hne r)
  · intro r _ hbad
    rw [cellNum_coerceRow, valorOf, hbad]
    rfl
  · rw [coerceValorStep]
    simp only
    rw [List.map_map]
    have hmm : List.map ((fun r => cellNum (r.get v)) ∘ coerceRow v) df.rows
        = List.map (valorOf v) df.rows :=
      List.map_congr_left (fun r _ => cellNum_coerceRow v r)
    rw [hmm]
    exact sum_map_eq_sum_filter _ _ _ (fun r _ hq => by
      have hnone : toNumericCoerce (r.get v) = none :=
        Option.not_isSome_iff_eq_none.mp (by rw [hq]; exact Bool.false_ne_true)
      rw [valorOf, hnone]
      rfl)

/-- Claim C3, witness: the statement at the concrete file whose first
row has amount "abc", plus the full pipeline output on it: the bad row
is present in the count (2 notas) and contributes 0 to the total (10). -/
theorem C3_witness :
    ((coerceValorStep "total" dfC3ex).rows.length = dfC3ex.rows.length
      ∧ ((coerceValorStep "total" dfC3ex).rows.map (fun r => r.get "cliente"))
          = dfC3ex.rows.map (fun r => r.get "cliente")
      ∧ (∀ r ∈ dfC3ex.rows, toNumericCoerce (r.get "total") = none →
          cellNum ((coerceRow "total" r).get "total") = 0)
      ∧ ((coerceValorStep "total" dfC3ex).rows.map
            (fun r => cellNum (r.get "total"))).sum
          = ((dfC3ex.rows.filter
              (fun r => (toNumericCoerce (r.get "total")).isSome)).map
                (valorOf "total")).sum)
    ∧ runPipeline dfC3ex = Except.ok outC3ex :=
  ⟨C3_amount_coercion "total" "cliente" (by decide) dfC3ex, run_dfC3ex⟩

/-- Claim C8, counterexample: two files lacking any amount synonym but
with different detected customer columns produce the same error value
`["valor"]`, so the error carries the missing canonical fields but not
the actually-detected source columns. -/
theorem C8_counterexample :
    runPipeline dfC8exA = Except.error ["valor"]
    ∧ runPipeline dfC8exB = Except.error ["valor"]
    ∧ find_col (normCols dfC8exA).cols clienteSyns = some "cliente"
    ∧ find_col (normCols dfC8exB).cols clienteSyns = some "razao_social"
    ∧ (normCols dfC8exA).cols ≠ (normCols dfC8exB).cols :=
  ⟨run_dfC8exA, run_dfC8exB, by decide, by decide, by decide⟩

/-- Claim C8, amended: when a required canonical field (amount or
customer) resolves to absent, the run hard-stops with an error carrying
exactly the list of missing canonical fields (not the detected source
columns) and no analytics output is produced; a file lacking any amount
synonym while the customer resolves fails with exactly `["valor"]`. -/
theorem C8_missing_required (df : DataFrame)
    (h : find_col (normCols df).cols valorSyns = none
       ∨ find_col (normCols df).cols clienteSyns = none) :
    runPipeline df = Except.error (missingOf (normCols df).cols)
    ∧ missingOf (normCols df).cols ≠ []
    ∧ ("valor" ∈ missingOf (normCols df).cols
        ↔ find_col (normCols df).cols valorSyns = none)
    ∧ ("cliente" ∈ missingOf (normCols df).cols
        ↔ find_col (normCols df).cols clienteSyns = none)
    ∧ (find_col (normCols df).cols valorSyns = none →
        find_col (normCols df).cols clienteSyns ≠ none →
        missingOf (normCols df).cols = ["valor"]) := by
  refine ⟨runPipeline_err h, ?_, ?_, ?_, ?_⟩
    <;> rw [missingOf_eq]
    <;> cases h1 : find_col (normCols df).cols valorSyns
    <;> cases h2 : find_col (normCols df).cols clienteSyns
    <;> simp_all

/-- Claim C8, witness: the amended statement at the concrete file whose
only column is `cliente`. -/
theorem C8_witness : missingOf (normCols dfC8exA).cols = ["valor"] :=
  (C8_missing_required dfC8exA (Or.inl (by decide))).2.2.2.2 (by decide)
    (by decide)

/-- Claim C6: for a non-empty aggregate series with positive total, the
share column of the ABC table sums to exactly 1 (the floating-point
tolerance of the claim is not needed over ℚ), and the class column along
the descending sort is monotone non-decreasing in the order
A before B before C. -/
theorem C6_abc_table_invariant (l : List (Cell × ℚ)) (hne : l ≠ [])
    (hpos : 0 < totalOf l) :
    (participacao l).sum = 1
    ∧ List.Chain' (fun a b => rank a ≤ rank b) (abcClasses l) := by
  have hT : totalOf (sortDesc l) = totalOf l := sortDesc_totalOf l
  have hmap : (sortDesc l).map (fun p => p.2 / totalOf (sortDesc l))
      = ((sortDesc l).map Prod.snd).map (fun x => x / totalOf (sortDesc l)) := by
    rw [List.map_map]
    rfl
  have hsum : (participacao l).sum = 1 := by
    rw [participacao, hmap, sum_map_div]
    rw [show ((sortDesc l).map Prod.snd).sum = totalOf (sortDesc l) from rfl]
    rw [hT]
    exact div_self (ne_of_gt hpos)
  refine ⟨hsum, ?_⟩
  rw [abcClasses]
  apply chain_rank_cumsum
  · rw [participacao]
    have hsorted : (sortDesc l).Pairwise valGe := sortDesc_sorted l
    refine hsorted.map _ (fun a b hab => ?_)
    have hTpos : 0 < totalOf (sortDesc l) := by rw [hT]; exact hpos
    exact (div_le_div_iff_of_pos_right hTpos).mpr hab
  · rw [zero_add]
    exact hsum

/-- Claim C6, witness: the two-entry series with values 3 and 1. -/
theorem C6_witness :
    (participacao serC6ex).sum = 1
    ∧ List.Chain' (fun a b => rank a ≤ rank b) (abcClasses serC6ex) :=
  C6_abc_table_invariant serC6ex (by decide)
    (by norm_num [totalOf, serC6ex])

/-- Claim C7: the three scenario rates are mean growth minus/plus 0.75
times the sample-standard-deviation volatility (taken here as the
nonnegative square root of the sample variance) and the base rate; the
projection compounds from the last observed value for exactly `h` steps
excluding the anchor, and on the series `[100, 110, 121]` with horizon 2
all three scenarios produce `[133.1, 146.41]`. -/
theorem C7_projection (vol : ℚ) (hnn : 0 ≤ vol)
    (hvol : vol * vol = sampleVar (pctChange [100, 110, 121])) :
    (∀ (u t : ℚ) (n : ℕ), (projecao u t n).length = n)
    ∧ (∀ (u t : ℚ) (n : ℕ),
        projecao u t (n + 1) = u * (1 + t) :: projecao (u * (1 + t)) t n)
    ∧ mean (pctChange [100, 110, 121]) = 0.10
    ∧ sampleVar (pctChange [100, 110, 121]) = 0
    ∧ projecao 121
        (cenarioConservador (mean (pctChange [100, 110, 121])) vol) 2
        = [133.1, 146.41]
    ∧ projecao 121 (cenarioBase (mean (pctChange [100, 110, 121]))) 2
        = [133.1, 146.41]
    ∧ projecao 121
        (cenarioOtimista (mean (pctChange [100, 110, 121])) vol) 2
        = [133.1, 146.41] := by
  have hlen : ∀ (u t : ℚ) (n : ℕ), (projecao u t n).length = n := by
    intro u t n
    induction n generalizing u with
    | zero => rfl
    | succ k ih => simp [projecao, ih]
  have hchange : pctChange [100, 110, 121] = [1/10, 1/10] := by
    norm_num [pctChange]
  have hmean : mean (pctChange [100, 110, 121]) = 0.10 := by
    rw [hchange]
    norm_num [mean]
  have hvar : sampleVar (pctChange [100, 110, 121]) = 0 := by
    rw [hchange]
    norm_num [sampleVar, mean]
  have hv0 : vol = 0 := by
    rw [hvar] at hvol
    exact mul_self_eq_zero.mp hvol
  subst hv0
  have hproj : projecao 121 (0.10 : ℚ) 2 = [133.1, 146.41] := by
    norm_num [projecao]
  refine ⟨hlen, fun u t n => rfl, hmean, hvar, ?_, ?_, ?_⟩
  · rw [show cenarioConservador (mean (pctChange [100, 110, 121])) 0
        = (0.10 : ℚ) by rw [cenarioConservador, hmean]; ring]
    exact hproj
  · rw [show cenarioBase (mean (pctChange [100, 110, 121]))
        = (0.10 : ℚ) by rw [cenarioBase, hmean]]
    exact hproj
  · rw [show cenarioOtimista (mean (pctChange [100, 110, 121])) 0
        = (0.10 : ℚ) by rw [cenarioOtimista, hmean]; ring]
    exact hproj

/-- Claim C7, witness: the statement with volatility 0, which is the
sample standard deviation of the growth series of `[100, 110, 121]`. -/
theorem C7_witness :
    projecao 121 (cenarioBase (mean (pctChange [100, 110, 121]))) 2
      = [133.1, 146.41] :=
  (C7_projection 0 (le_refl 0)
    (by norm_num [sampleVar, pctChange, mean])).2.2.2.2.2.1

theorem addTo_keys_eq (acc : List (Cell × ℚ)) (k : Cell) (q : ℚ) :
    (addTo acc k q).map Prod.fst
      = if k ∈ acc.map Prod.fst then acc.map Prod.fst
        else acc.map Prod.fst ++ [k] := by
  induction acc with
  | nil => simp [addTo]
  | cons p t ih =>
    rw [addTo]
    by_cases hk : p.1 = k
    · rw [if_pos hk]
      simp [hk]
    · rw [if_neg hk]
      simp only [List.map_cons]
      rw [ih]
      by_cases hm : k ∈ t.map Prod.fst
      · rw [if_pos hm, if_pos (by simp [hm])]
      · rw [if_neg hm,
          if_neg (by simp [hm]; exact fun hh => hk hh.symm)]
        simp

theorem addTo_keys_mem_iff (acc : List (Cell × ℚ)) (k : Cell) (q : ℚ)
    (x : Cell) :
    x ∈ (addTo acc k q).map Prod.fst ↔ x ∈ acc.map Prod.fst ∨ x = k := by
  rw [addTo_keys_eq]
  split_ifs with hm
  · constructor
    · exact Or.inl
    · rintro (h | rfl)
      · exact h
      · exact hm
  · rw [List.mem_append, List.mem_singleton]

theorem addTo_keys_nodup (acc : List (Cell × ℚ)) (k : Cell) (q : ℚ)
    (h : (acc.map Prod.fst).Nodup) : ((addTo acc k q).map Prod.fst).Nodup := by
  rw [addTo_keys_eq]
  split_ifs with hm
  · exact h
  · rw [List.nodup_append]
    exact ⟨h, List.nodup_singleton k, by simpa using hm⟩

theorem groupSumAux_mem (l : List (Cell × ℚ)) :
    ∀ (acc : List (Cell × ℚ)) (x : Cell),
      (x ∈ ((l.foldl (fun acc p =>
          if p.1 = Cell.null then acc else addTo acc p.1 p.2) acc).map
            Prod.fst)
        ↔ x ∈ acc.map Prod.fst ∨ (x ∈ l.map Prod.fst ∧ x ≠ Cell.null)) := by
  induction l with
  | nil => intro acc x; simp
  | cons p t ih =>
    intro acc x
    rw [List.foldl_cons]
    by_cases hp : p.1 = Cell.null
    · rw [if_pos hp, ih]
      simp only [List.map_cons, List.mem_cons]
      constructor
      · rintro (h | ⟨h, hn⟩)
        · exact Or.inl h
        · exact Or.inr ⟨Or.inr h, hn⟩
      · rintro (h | ⟨h | h, hn⟩)
        · exact Or.inl h
        · exact absurd (h.trans hp) hn
        · exact Or.inr ⟨h, hn⟩
    · rw [if_neg hp, ih]
      rw [addTo_keys_mem_iff]
      simp only [List.map_cons, List.mem_cons]
      constructor
      · rintro ((h | rfl) | ⟨h, hn⟩)
        · exact Or.inl h
        · exact Or.inr ⟨Or.inl rfl, hp⟩
        · exact Or.inr ⟨Or.inr h, hn⟩
      · rintro (h | ⟨h | h, hn⟩)
        · exact Or.inl (Or.inl h)
        · exact Or.inl (Or.inr h)
        · exact Or.inr ⟨h, hn⟩

theorem groupSumAux_nodup (l : List (Cell × ℚ)) :
    ∀ acc : List (Cell × ℚ), (acc.map Prod.fst).Nodup →
      (((l.foldl (fun acc p =>
          if p.1 = Cell.null then acc else addTo acc p.1 p.2) acc).map
            Prod.fst)).Nodup := by
  induction l with
  | nil => intro acc h; exact h
  | cons p t ih =>
    intro acc h
    rw [List.foldl_cons]
    by_cases hp : p.1 = Cell.null
    · rw [if_pos hp]
      exact ih acc h
    · rw [if_neg hp]
      exact ih _ (addTo_keys_nodup acc p.1 p.2 h)

theorem groupSum_keys_nodup (l : List (Cell × ℚ)) :
    ((groupSum l).map Prod.fst).Nodup :=
  groupSumAux_nodup l [] (by simp)

theorem groupSum_keys_mem (l : List (Cell × ℚ)) (x : Cell) :
    x ∈ (groupSum l).map Prod.fst
      ↔ x ∈ l.map Prod.fst ∧ x ≠ Cell.null := by
  have h := groupSumAux_mem l [] x
  rw [groupSum]
  rw [h]
  simp

/-- The customer table has exactly one row per distinct non-null key:
its length is the `nunique` of the key column. -/
theorem groupSum_length_eq_nunique (l : List (Cell × ℚ)) :
    (groupSum l).length = nunique (l.map Prod.fst) := by
  rw [show (groupSum l).length = ((groupSum l).map Prod.fst).length from
    (List.length_map _ _).symm]
  rw [nunique]
  apply List.Perm.length_eq
  apply (List.perm_ext_iff_of_nodup (groupSum_keys_nodup l)
    (List.nodup_dedup _)).mpr
  intro a
  rw [groupSum_keys_mem, List.mem_dedup, List.mem_filter]
  simp

/-- Claim C9, counterexample: the customer grouping key is the raw source
value " acme ", not its trimmed upper-cased form "ACME" the claim
prescribes; and a file with no customer column hard-stops with an error
instead of degrading to an "UNKNOWN" sentinel key. -/
theorem C9_counterexample :
    runPipeline dfC9ex = Except.ok outC9ex
    ∧ outC9ex.clientes = [(Cell.str " acme ", 10)]
    ∧ specCustomerKey " acme " = "ACME"
    ∧ Cell.str " acme " ≠ Cell.str (specCustomerKey " acme ")
    ∧ runPipeline dfC9noCliente = Except.error ["cliente"] :=
  ⟨run_dfC9ex, rfl, by decide, by decide, run_dfC9noCliente⟩

/-- Claim C9, amended: the customer grouping key is the raw source cell,
unnormalized — every key of the customer table occurs literally as a
value of the customer column — and an unresolved customer column is a
hard stop (customer is a required field), not an "UNKNOWN" sentinel. -/
theorem C9_raw_key_and_hard_stop :
    (∀ (df : DataFrame) (v c : String) (out : Output) (k : Cell) (q : ℚ),
        find_col (normCols df).cols valorSyns = some v →
        find_col (normCols df).cols clienteSyns = some c →
        runPipeline df = Except.ok out →
        (k, q) ∈ out.clientes →
        k ∈ (dateFilter (normCols df)).rows.map (fun r => r.get c))
    ∧ (∀ df : DataFrame,
        find_col (normCols df).cols clienteSyns = none →
        runPipeline df = Except.error (missingOf (normCols df).cols)
        ∧ "cliente" ∈ missingOf (normCols df).cols) := by
  constructor
  · intro df v c out k q hv hc hrun hmem
    have hne : c ≠ v := valor_cliente_ne (find_col_mem hv) (find_col_mem hc)
    rw [runPipeline_ok hv hc] at hrun
    injection hrun with hrun
    subst hrun
    rw [mkOutput_eq hne] at hmem
    simp only at hmem
    have h1 := sortDesc_mem hmem
    have hk := List.mem_map_of_mem Prod.fst h1
    have h2 := (groupSum_keys_mem _ k).mp hk
    have h3 := h2.1
    rw [List.map_map] at h3
    simpa using h3
  · intro df hc
    refine ⟨runPipeline_err (Or.inr hc), ?_⟩
    rw [missingOf_eq]
    simp [hc]

/-- Claim C9, witness: the first part applied to the concrete file whose
customer cell is " acme ", and the second to a file lacking the
column. -/
theorem C9_witness :
    Cell.str " acme "
      ∈ (dateFilter (normCols dfC9ex)).rows.map (fun r => r.get "cliente")
    ∧ runPipeline dfC9noCliente
        = Except.error (missingOf (normCols dfC9noCliente).cols) :=
  ⟨C9_raw_key_and_hard_stop.1 dfC9ex "total" "cliente" outC9ex
      (Cell.str " acme ") 10 (by decide) (by decide) run_dfC9ex
      (by rw [outC9ex]; exact List.mem_singleton.mpr rfl),
    (C9_raw_key_and_hard_stop.2 dfC9noCliente (by decide)).1⟩

/-- Claim C10: when the customer column resolves, no row has a null
customer, there are at most 5 distinct customer keys and total revenue
is positive, the top-5 concentration ratio is exactly 1 and the reported
tier is the high one (ratio above 0.60). -/
theorem C10_top5_full_coverage (df : DataFrame) (v c : String) (out : Output)
    (hv : find_col (normCols df).cols valorSyns = some v)
    (hc : find_col (normCols df).cols clienteSyns = some c)
    (hrun : runPipeline df = Except.ok out)
    (hnonull : ∀ r ∈ (dateFilter (normCols df)).rows, r.get c ≠ Cell.null)
    (hle5 : out.qtdClientes ≤ 5)
    (hpos : 0 < out.faturamento) :
    out.concentracao = RatioVal.fin 1 ∧ out.risco = Risco.alto := by
  have hne : c ≠ v := valor_cliente_ne (find_col_mem hv) (find_col_mem hc)
  rw [runPipeline_ok hv hc] at hrun
  injection hrun with hrun
  subst hrun
  rw [mkOutput_eq hne] at hle5 hpos ⊢
  simp only at hle5 hpos ⊢
  have hkeys0 : ((dateFilter (normCols df)).rows.map
        (fun r => (r.get c, valorOf v r))).map Prod.fst
      = (dateFilter (normCols df)).rows.map (fun r => r.get c) := by
    rw [List.map_map]
    rfl
  have hlen : (groupSum ((dateFilter (normCols df)).rows.map
      (fun r => (r.get c, valorOf v r)))).length ≤ 5 := by
    rw [groupSum_length_eq_nunique, hkeys0]
    exact hle5
  have hlenS : (sortDesc (groupSum ((dateFilter (normCols df)).rows.map
      (fun r => (r.get c, valorOf v r))))).length ≤ 5 := by
    rw [sortDesc_length]
    exact hlen
  have htake := List.take_of_length_le hlenS
  have hnn : ∀ p ∈ (dateFilter (normCols df)).rows.map
      (fun r => (r.get c, valorOf v r)), p.1 ≠ Cell.null := by
    intro p hp
    rcases List.mem_map.mp hp with ⟨r, hr, rfl⟩
    exact hnonull r hr
  have hsum : ((sortDesc (groupSum ((dateFilter (normCols df)).rows.map
        (fun r => (r.get c, valorOf v r))))).map Prod.snd).sum
      = ((dateFilter (normCols df)).rows.map (valorOf v)).sum := by
    have h1 := ((sortDesc_perm (groupSum ((dateFilter (normCols df)).rows.map
        (fun r => (r.get c, valorOf v r))))).map Prod.snd).sum_eq
    rw [h1, groupSum_snd_sum _ hnn, List.map_map]
    rfl
  have hne0 : ((dateFilter (normCols df)).rows.map (valorOf v)).sum ≠ 0 :=
    ne_of_gt hpos
  rw [htake, hsum, fdiv, if_neg hne0, div_self hne0]
  refine ⟨rfl, ?_⟩
  rw [riscoOf]
  norm_num

/-- Claim C10, witness: the concrete two-customer file with positive
total. -/
theorem C10_witness : outC10ex.concentracao = RatioVal.fin 1
    ∧ outC10ex.risco = Risco.alto :=
  C10_top5_full_coverage dfC10ex "total" "cliente" outC10ex (by decide)
    (by decide) run_dfC10ex (by decide) (by decide)
    (by norm_num [outC10ex])

end Dashboard
